import Mathlib

/-!
Verification development for the trust-chain validator of tactic-ndn-cxx
(src/src/security/validator.cpp).

The validator orchestrates recursive certificate validation: `validate` asks
the external policy engine (`checkPolicy`) for a list of ValidationRequests,
issues each through the Face (Transport), retries on timeout, recursively
re-validates fetched data, and dispatches signature verification by signature
kind with byte-range reconstruction.

Embedding conventions:
- Continuations (the `onValidated` / `onValidationFailed` std::function values)
  are opaque to the validator; they are embedded as identifiers (`ContId`).
  The validator itself only ever invokes failure continuations (in
  `onTimeout`); invocations are recorded in an observable trace.
- The Face method `expressInterest` is embedded as appending a pending fetch
  (carrying the deep-embedded `onData` / `onTimeout` closures, whose shapes
  are fixed by validator.cpp lines 43-48, 74-79 and 104-106) and recording an
  `expressed` trace event.
- The external event loop is embedded as a schedule: a list of
  (pending-fetch index, outcome) pairs, each delivering either data or a
  timeout to one in-flight fetch, in any order.
- The thrown `Error("Face should be set ...")` is embedded as `Except.error`.
- Packet classes (Name, Block, Signature, Data, Interest) and the wire
  encoding are repository code not under src/; they are modelled from the
  spec as noted on each definition, with a simplified TLV format (one-byte
  type and length).
- The CryptoPP RSA primitives are external-library collaborators; they are
  embedded as parameters: `wfKey` tells which public-key byte strings the
  library can load, `rsa` is the pure verification function of spec section
  4.4 (determinism).  A key-load failure is an uncaught library exception,
  embedded as `Except.error CryptoErr.berDecodeError`.
-/

/-- Raw byte strings (each byte a natural number). -/
abbrev Bytes := List Nat

/-- Modelled from the spec: a TLV block of the wire format (wire
encoding/decoding of named objects is an external collaborator, spec section
1); a block has a numeric type and opaque value bytes. -/
structure Block where
  type : Nat
  value : Bytes
deriving DecidableEq, Repr

/-- Modelled from the spec: total encoded size of a block (type octet,
length octet, value bytes) — the C++ Block::size(). -/
def Block.size (b : Block) : Nat := 2 + b.value.length

/-- Modelled from the spec: size of the value bytes — Block::value_size(). -/
def Block.value_size (b : Block) : Nat := b.value.length

/-- Modelled from the spec: wire encoding of one block, one-byte type and
one-byte length followed by the value bytes. -/
def encodeBlock (b : Block) : Bytes := b.type :: b.value.length :: b.value

/-- Modelled from the spec: parse a byte string as a single TLV block
(Block::blockFromValue); fails with Block::Error when the bytes are not one
well-formed block. -/
def blockFromValue : Bytes → Option Block
  | t :: l :: rest => if rest.length = l then some ⟨t, rest⟩ else none
  | _ => none

/-- TLV type number of a Name block (modelled from the spec). -/
def Tlv.NameType : Nat := 7

/-- TLV type number of a name component block (modelled from the spec). -/
def Tlv.ComponentType : Nat := 8

/-- TLV type number of a Content block (modelled from the spec). -/
def Tlv.ContentType : Nat := 21

/-- TLV type number of a SignatureInfo block (modelled from the spec). -/
def Tlv.SigInfoType : Nat := 22

/-- TLV type number of the SignatureType element (modelled from the spec). -/
def Tlv.SigTypeType : Nat := 27

/-- Modelled from the spec: a Name is an ordered sequence of opaque binary
components (spec section 3). -/
structure Name where
  components : List Bytes
deriving DecidableEq, Repr

/-- Modelled from the spec: an Interest (Request) carries a Name. -/
structure Interest where
  name : Name
deriving DecidableEq, Repr

/-- Modelled from the spec: a Signature is a tagged variant carrying signer
metadata (the info block) and the raw signature bytes (the value block); the
kind tag is encoded inside the info block. -/
structure Signature where
  info : Block
  value : Block
deriving DecidableEq, Repr

/-- The numeric tag of the Sha256WithRsa signature kind
(Signature::Sha256WithRsa in the C++ enum). -/
def Signature.Sha256WithRsa : Nat := 1

/-- Modelled from the spec: Signature::getType() reads the signature kind
from the leading SignatureType element of the info block; a malformed info
block raises Signature::Error, embedded as `none`. -/
def Signature.getType (s : Signature) : Option Nat :=
  if s.info.type = Tlv.SigInfoType then
    match s.info.value with
    | t :: l :: k :: _ => if t = Tlv.SigTypeType ∧ l = 1 then some k else none
    | _ => none
  else none

/-- Modelled from the spec: a SignedObject (Data) carries a Name, a content
payload and exactly one Signature (spec section 3). -/
structure Data where
  name : Name
  content : Bytes
  signature : Signature
deriving DecidableEq, Repr

/-- Modelled from the spec: wire encoding of one name component. -/
def encodeComponent (c : Bytes) : Bytes := encodeBlock ⟨Tlv.ComponentType, c⟩

/-- Modelled from the spec: the value bytes of the wire encoding of a Name — the
concatenated encodings of its components (Name::wireEncode().value()). -/
def Name.wireEncodeValue (n : Name) : Bytes :=
  (n.components.map encodeComponent).flatten

/-- Modelled from the spec: the value bytes of the wire encoding of a Data
packet — Name, Content, SignatureInfo and finally the SignatureValue block
(Data::wireEncode().value()). -/
def Data.wireEncodeValue (d : Data) : Bytes :=
  encodeBlock ⟨Tlv.NameType, d.name.wireEncodeValue⟩
    ++ encodeBlock ⟨Tlv.ContentType, d.content⟩
    ++ encodeBlock d.signature.info
    ++ encodeBlock d.signature.value

/-- Modelled from the spec: opaque raw public-key bytes. -/
structure PublicKey where
  bytes : Bytes
deriving DecidableEq, Repr

/-- Errors of the external crypto library that the validator does not catch:
CryptoPP raises a BER decode error when the public-key bytes cannot be
loaded (RSA::PublicKey::Load). -/
inductive CryptoErr
  | berDecodeError
deriving DecidableEq, Repr

/-- The signed byte range reconstructed for a Data packet, from
validator.cpp line 213: the full encoded representation
(wireEncode().value()) truncated by the total size of the trailing
signature-value block (getSignature().getValue().size()). -/
def signedPortionData (d : Data) : Bytes :=
  d.wireEncodeValue.take (d.wireEncodeValue.length - d.signature.value.size)

/-- The signed byte range reconstructed for an Interest, from validator.cpp
lines 156-157: the value bytes of the encoded Name truncated by the total
size of the block of the last component. -/
def signedPortionInterest (n : Name) : Bytes :=
  n.wireEncodeValue.take
    (n.wireEncodeValue.length - (Block.size ⟨Tlv.ComponentType, n.components.getLastD []⟩))

/-- Validator::verifySignature(Data, SignatureSha256WithRsa, PublicKey),
validator.cpp lines 199-219: load the key (an undecodable key makes the
crypto library raise, uncaught here), then verify the reconstructed signed
range of the Data against the raw value bytes of the signature. -/
def Validator.verifySignatureDataRsa (wfKey : Bytes → Bool)
    (rsa : Bytes → Bytes → Bytes → Bool)
    (d : Data) (sig : Signature) (key : PublicKey) : Except CryptoErr Bool :=
  if wfKey key.bytes then
    .ok (rsa key.bytes (signedPortionData d) sig.value.value)
  else .error .berDecodeError

/-- Validator::verifySignature(Buffer, SignatureSha256WithRsa, PublicKey),
validator.cpp lines 221-239: verify the whole supplied buffer. -/
def Validator.verifySignatureBufferRsa (wfKey : Bytes → Bool)
    (rsa : Bytes → Bytes → Bytes → Bool)
    (buf : Bytes) (sig : Signature) (key : PublicKey) : Except CryptoErr Bool :=
  if wfKey key.bytes then
    .ok (rsa key.bytes buf sig.value.value)
  else .error .berDecodeError

/-- Validator::verifySignature(uint8_t*, size_t, SignatureSha256WithRsa,
PublicKey), validator.cpp lines 241-258: verify the supplied byte range. -/
def Validator.verifySignatureRawRsa (wfKey : Bytes → Bool)
    (rsa : Bytes → Bytes → Bytes → Bool)
    (buf : Bytes) (sig : Signature) (key : PublicKey) : Except CryptoErr Bool :=
  if wfKey key.bytes then
    .ok (rsa key.bytes buf sig.value.value)
  else .error .berDecodeError

/-- Validator::verifySignature(Data, PublicKey), validator.cpp lines
111-132: dispatch on the signature kind inside a try block; only
Sha256WithRsa is implemented, any other kind returns false; Signature::Error
(a failing getType, embedded as `none`) is caught and downgraded to false;
a crypto-library error from the RSA leaf is not caught and propagates. -/
def Validator.verifySignatureData (wfKey : Bytes → Bool)
    (rsa : Bytes → Bytes → Bytes → Bool)
    (d : Data) (key : PublicKey) : Except CryptoErr Bool :=
  match d.signature.getType with
  | some t =>
    if t = Signature.Sha256WithRsa then
      Validator.verifySignatureDataRsa wfKey rsa d d.signature key
    else .ok false
  | none => .ok false

/-- Validator::verifySignature(Buffer, Signature, PublicKey), validator.cpp
lines 176-197: same dispatch as the Data form, over a caller-supplied signed
byte range. -/
def Validator.verifySignatureBuffer (wfKey : Bytes → Bool)
    (rsa : Bytes → Bytes → Bytes → Bool)
    (buf : Bytes) (sig : Signature) (key : PublicKey) : Except CryptoErr Bool :=
  match sig.getType with
  | some t =>
    if t = Signature.Sha256WithRsa then
      Validator.verifySignatureBufferRsa wfKey rsa buf sig key
    else .ok false
  | none => .ok false

/-- Validator::verifySignature(Interest, PublicKey), validator.cpp lines
134-174: a Name of fewer than 3 components fails immediately (line 139-140,
before the try block, before any encoding or parsing); otherwise the last
two components are parsed as the signature value and info blocks
(Block::Error caught, giving false), the kind is dispatched (Signature::Error
caught, giving false), and for Sha256WithRsa the encoded Name minus the last
last component is verified. -/
def Validator.verifySignatureInterest (wfKey : Bytes → Bool)
    (rsa : Bytes → Bytes → Bytes → Bool)
    (interest : Interest) (key : PublicKey) : Except CryptoErr Bool :=
  let interestName := interest.name
  if interestName.components.length < 3 then .ok false
  else
    match interestName.components.get? (interestName.components.length - 2),
          interestName.components.get? (interestName.components.length - 1) with
    | some infoComp, some valueComp =>
      match blockFromValue infoComp, blockFromValue valueComp with
      | some infoB, some valueB =>
        let sig : Signature := ⟨infoB, valueB⟩
        match sig.getType with
        | some t =>
          if t = Signature.Sha256WithRsa then
            Validator.verifySignatureRawRsa wfKey rsa
              (signedPortionInterest interestName) sig key
          else .ok false
        | none => .ok false
      | _, _ => .ok false
    | _, _ => .ok false

/-- Identifier of an opaque continuation (a std::function value held by the
caller or by the policy engine); the validator only passes these around and
invokes them, so they are embedded as names. -/
abbrev ContId := Nat

/-- ValidationRequest, fields as accessed by validator.cpp (m_interest,
m_retry, m_stepCount, m_onValidated, m_onDataValidated); the record itself
lives in a header outside src/, its shape is modelled from the spec (spec
section 3): fetch target, remaining retry count, recursion budget for the
fetched object, and the two stored continuations. -/
structure ValidationRequest where
  m_interest : Interest
  m_retry : Int
  m_stepCount : Int
  m_onValidated : ContId
  m_onDataValidated : ContId
deriving DecidableEq, Repr

/-- The checkPolicy collaborator (external policy engine, spec section 4.2):
given the subject, the step count and the two continuations, it returns the
list of ValidationRequests the validator must issue.  Direct callback
invocations performed inside the policy engine are external to the validator
and are not part of the trace of the validator. -/
inductive Subject
  | interest (i : Interest)
  | data (d : Data)
deriving DecidableEq, Repr

/-- Type of the checkPolicy collaborator consumed by the validator. -/
abbrev Policy := Subject → Int → ContId → ContId → List ValidationRequest

/-- The onFailure closure built at validator.cpp lines 41 and 72:
bind(onValidationFailed, subject) — the failure continuation partially
applied to the subject of the current validate call. -/
inductive OnFailureClo
  | failBind (cont : ContId) (subject : Subject)
deriving DecidableEq, Repr

/-- One in-flight fetch held by the Face: the expressed interest together
with the deep-embedded callbacks registered at lines 43-48 / 74-79 /
104-106: onData is bound to `nextStep`, onTimeout is bound to `retry`,
`onFailure` and `nextStep`. -/
structure PendingFetch where
  interest : Interest
  nextStep : ValidationRequest
  retry : Int
  onFailure : OnFailureClo
deriving DecidableEq, Repr

/-- Observable actions of the validator: an expressInterest call on the
Face, or the invocation of a failure continuation on a subject. -/
inductive TraceEvent
  | expressed (i : Interest)
  | failureInvoked (cont : ContId) (subject : Subject)
deriving DecidableEq, Repr

/-- State of one validator run: the in-flight fetches of the Face and the trace
of observable actions so far. -/
structure VState where
  pending : List PendingFetch
  trace : List TraceEvent
deriving DecidableEq, Repr

/-- The configuration error thrown at validator.cpp lines 38 and 69
(Error("Face should be set prior to verify method to call")). -/
inductive VError
  | faceNotSet
deriving DecidableEq, Repr

/-- Face::expressInterest as used by the validator: register the fetch with
its callbacks and record the transport call. -/
def Face.expressInterest (i : Interest) (nextStep : ValidationRequest)
    (retry : Int) (onFailure : OnFailureClo) (st : VState) : VState :=
  { pending := st.pending ++ [⟨i, nextStep, retry, onFailure⟩],
    trace := st.trace ++ [.expressed i] }

/-- Validator::validate, validator.cpp lines 26-55 and 57-86 (the Interest
and Data overloads are textually identical up to the subject type, so both
are embedded by this one definition over `Subject`): call checkPolicy; if
the returned list is empty do nothing; otherwise require the Face (throwing
the configuration error when absent) and express every request, sharing one
onFailure closure bound to the subject of this call. -/
def Validator.validate (policy : Policy) (faceSet : Bool) (subject : Subject)
    (onValidated onValidationFailed : ContId) (stepCount : Int)
    (st : VState) : Except VError VState :=
  let nextSteps := policy subject stepCount onValidated onValidationFailed
  if nextSteps.isEmpty then .ok st
  else if faceSet then
    let onFailure := OnFailureClo.failBind onValidationFailed subject
    .ok (nextSteps.foldl
      (fun s r => Face.expressInterest r.m_interest r r.m_retry onFailure s) st)
  else .error .faceNotSet

/-- Validator::onData, validator.cpp lines 88-94: recursively validate the
fetched Data with the stored continuations of the request and stored step
count. -/
def Validator.onData (policy : Policy) (faceSet : Bool) (interest : Interest)
    (d : Data) (nextStep : ValidationRequest) (st : VState) :
    Except VError VState :=
  Validator.validate policy faceSet (.data d)
    nextStep.m_onValidated nextStep.m_onDataValidated nextStep.m_stepCount st

/-- Execute an onFailure closure: invoke the bound continuation on the bound
subject. -/
def invokeFailure : OnFailureClo → VState → VState
  | .failBind c s, st => { st with trace := st.trace ++ [.failureInvoked c s] }

/-- The trace event produced by executing an onFailure closure. -/
def failEventOf : OnFailureClo → TraceEvent
  | .failBind c s => .failureInvoked c s

/-- Validator::onTimeout, validator.cpp lines 96-109: while retries remain,
reissue the same interest with the retry argument decremented and the same
onData / onTimeout bindings; otherwise invoke the failure closure. -/
def Validator.onTimeout (interest : Interest) (retry : Int)
    (onFailure : OnFailureClo) (nextStep : ValidationRequest)
    (st : VState) : VState :=
  if retry > 0 then
    Face.expressInterest interest nextStep (retry - 1) onFailure st
  else
    invokeFailure onFailure st

/-- One network outcome delivered by the external event loop to an in-flight
fetch: exactly one of data arrival or timeout (spec section 4.3). -/
inductive NetOutcome
  | timeout
  | arrives (d : Data)
deriving DecidableEq, Repr

/-- The external event loop (spec section 5): each schedule entry picks one
in-flight fetch by its current index and delivers one outcome to it,
running the registered callback of that fetch; entries naming no in-flight fetch
deliver nothing.  Sibling fetches may complete in any order. -/
def runLoop (policy : Policy) (faceSet : Bool) :
    List (Nat × NetOutcome) → VState → Except VError VState
  | [], st => .ok st
  | (i, o) :: rest, st =>
    match st.pending.get? i with
    | none => runLoop policy faceSet rest st
    | some pf =>
      let st1 : VState := { st with pending := st.pending.eraseIdx i }
      match o with
      | .timeout =>
        runLoop policy faceSet rest
          (Validator.onTimeout pf.interest pf.retry pf.onFailure pf.nextStep st1)
      | .arrives d =>
        match Validator.onData policy faceSet pf.interest d pf.nextStep st1 with
        | .ok st2 => runLoop policy faceSet rest st2
        | .error e => .error e

/-- A complete asynchronous run of one top-level validate call: the initial
synchronous validate followed by the event loop on a schedule. -/
def runTop (policy : Policy) (faceSet : Bool) (subject : Subject)
    (onValidated onValidationFailed : ContId) (stepCount : Int)
    (env : List (Nat × NetOutcome)) : Except VError VState :=
  match Validator.validate policy faceSet subject onValidated
      onValidationFailed stepCount ⟨[], []⟩ with
  | .ok st => runLoop policy faceSet env st
  | .error e => .error e

/-- Number of failure-continuation invocations recorded in a trace. -/
def failCount (tr : List TraceEvent) : Nat :=
  tr.countP fun e => match e with
    | .failureInvoked _ _ => true
    | _ => false

/-- The pending fetch that validate registers for request `r` when the
failure continuation of the subject is `f` and the subject is `s`. -/
def fetchOf (f : ContId) (s : Subject) (r : ValidationRequest) : PendingFetch :=
  ⟨r.m_interest, r, r.m_retry, .failBind f s⟩

/-- A concrete Sha256WithRsa signature with a well-formed info block
(SignatureInfo holding a SignatureType element with tag 1). -/
def sigRsaExample : Signature := ⟨⟨22, [27, 1, 1]⟩, ⟨23, [9, 9, 9]⟩⟩

/-- A concrete top-level Data subject. -/
def dataExample : Data := ⟨⟨[[1]]⟩, [5, 5], sigRsaExample⟩

/-- A concrete fetched certificate. -/
def certExample : Data := ⟨⟨[[2]]⟩, [], sigRsaExample⟩

/-- The top-level subject used by the concrete runs. -/
def subjExample : Subject := .data dataExample

/-- Interest for the first certificate fetch. -/
def interestA : Interest := ⟨⟨[[100]]⟩⟩

/-- Interest for the second certificate fetch. -/
def interestB : Interest := ⟨⟨[[101]]⟩⟩

/-- First sibling request, no retries. -/
def reqA : ValidationRequest := ⟨interestA, 0, 1, 31, 41⟩

/-- Second sibling request, no retries. -/
def reqB : ValidationRequest := ⟨interestB, 0, 1, 32, 42⟩

/-- A policy that spawns two sibling certificate fetches for the example
subject and resolves everything else directly. -/
def polTwoSiblings : Policy := fun s _ _ _ =>
  if s = subjExample then [reqA, reqB] else []

/-- Request for a two-level chain: fetch interestA, one retry, stored
continuations 31 / 41 and stored budget 2. -/
def reqChain1 : ValidationRequest := ⟨interestA, 1, 2, 31, 41⟩

/-- Deeper request spawned while validating the fetched certificate. -/
def reqChain2 : ValidationRequest := ⟨interestB, 0, 1, 32, 42⟩

/-- A policy describing a two-level certificate chain: the example subject
needs certExample, and certExample in turn needs a further certificate. -/
def polChain : Policy := fun s _ _ _ =>
  if s = subjExample then [reqChain1]
  else if s = Subject.data certExample then [reqChain2]
  else []

/-- A policy that spawns at most one request per call. -/
def polSingle : Policy := fun s _ _ _ =>
  if s = subjExample then [reqA] else []

/-- An in-flight fetch for reqChain1 as validate would register it. -/
def pfW : PendingFetch := ⟨interestA, reqChain1, 1, .failBind 40 subjExample⟩

/-- A signature whose info block carries the unknown kind tag 5. -/
def sigUnknown : Signature := ⟨⟨22, [27, 1, 5]⟩, ⟨23, [9]⟩⟩

/-- A Data packet carrying a signature of unknown kind. -/
def dataUnknown : Data := ⟨⟨[[1]]⟩, [], sigUnknown⟩

/-- An Interest whose last two name components encode a signature of
unknown kind 5 (info component, then value component). -/
def interestUnknown : Interest := ⟨⟨[[1], [22, 3, 27, 1, 5], [23, 1, 9]]⟩⟩

/-- An Interest whose Name has only two components, with bytes that are not
parseable as TLV blocks. -/
def interestShort : Interest := ⟨⟨[[0, 1], [2]]⟩⟩

theorem invokeFailure_eq (clo : OnFailureClo) (st : VState) :
    invokeFailure clo st = ⟨st.pending, st.trace ++ [failEventOf clo]⟩ := by
  cases clo
  rfl

theorem foldl_express_eq (onFailure : OnFailureClo) :
    ∀ (rs : List ValidationRequest) (st : VState),
      rs.foldl (fun s r => Face.expressInterest r.m_interest r r.m_retry onFailure s) st
        = ⟨st.pending ++ rs.map (fun r => ⟨r.m_interest, r, r.m_retry, onFailure⟩),
           st.trace ++ rs.map (fun r => .expressed r.m_interest)⟩ := by
  intro rs
  induction rs with
  | nil => intro st; simp
  | cons r rs ih =>
    intro st
    rw [List.foldl_cons, ih]
    simp [Face.expressInterest, List.append_assoc]

theorem validate_faceSet_eq (policy : Policy) (s : Subject) (v f : ContId)
    (n : Int) (st : VState) :
    Validator.validate policy true s v f n st
      = .ok ⟨st.pending ++ (policy s n v f).map (fetchOf f s),
             st.trace ++ (policy s n v f).map (fun r => .expressed r.m_interest)⟩ := by
  unfold Validator.validate
  cases h : policy s n v f with
  | nil => simp [h, List.isEmpty]
  | cons r rs =>
    simp only [h, List.isEmpty, if_false, if_true, foldl_express_eq]
    rfl

theorem runLoop_step_timeout (policy : Policy) (faceSet : Bool)
    (pf : PendingFetch) (ps : List PendingFetch)
    (rest : List (Nat × NetOutcome)) (tr : List TraceEvent) :
    runLoop policy faceSet ((0, .timeout) :: rest) ⟨pf :: ps, tr⟩
      = runLoop policy faceSet rest
          (Validator.onTimeout pf.interest pf.retry pf.onFailure pf.nextStep ⟨ps, tr⟩) := rfl

theorem runLoop_timeout_exhaust (policy : Policy) (faceSet : Bool) :
    ∀ (R : Nat) (pf : PendingFetch) (tr : List TraceEvent),
      pf.retry = (R : Int) →
      runLoop policy faceSet (List.replicate (R + 1) (0, .timeout)) ⟨[pf], tr⟩
        = .ok ⟨[], tr ++ List.replicate R (.expressed pf.interest)
                      ++ [failEventOf pf.onFailure]⟩ := by
  intro R
  induction R with
  | zero =>
    intro pf tr h
    rw [show List.replicate (0 + 1) ((0 : Nat), NetOutcome.timeout)
          = [(0, .timeout)] from rfl,
        runLoop_step_timeout]
    simp only [Validator.onTimeout, h]
    rw [if_neg (by norm_num), invokeFailure_eq]
    simp [runLoop]
  | succ R ih =>
    intro pf tr h
    rw [List.replicate_succ, runLoop_step_timeout]
    simp only [Validator.onTimeout, h]
    rw [if_pos (show ((R + 1 : Nat) : Int) > 0 by positivity)]
    have hdec : ((R + 1 : Nat) : Int) - 1 = (R : Int) := by push_cast; ring
    simp only [Face.expressInterest, List.nil_append, hdec]
    rw [ih ⟨pf.interest, pf.nextStep, (R : Int), pf.onFailure⟩
          (tr ++ [TraceEvent.expressed pf.interest]) rfl]
    simp [List.replicate_succ]

theorem runLoop_timeout_reissue (policy : Policy) (faceSet : Bool) :
    ∀ (k R : Nat) (pf : PendingFetch) (tr : List TraceEvent),
      pf.retry = (R : Int) → k ≤ R →
      runLoop policy faceSet (List.replicate k (0, .timeout)) ⟨[pf], tr⟩
        = .ok ⟨[⟨pf.interest, pf.nextStep, ((R - k : Nat) : Int), pf.onFailure⟩],
               tr ++ List.replicate k (.expressed pf.interest)⟩ := by
  intro k
  induction k with
  | zero =>
    intro R pf tr h hk
    obtain ⟨i, ns, r, f⟩ := pf
    simp only at h
    simp [List.replicate, runLoop, h]
  | succ k ih =>
    intro R pf tr h hk
    rw [List.replicate_succ, runLoop_step_timeout]
    simp only [Validator.onTimeout, h]
    rw [if_pos (show (R : Int) > 0 by exact_mod_cast Nat.lt_of_lt_of_le (Nat.succ_pos k) hk)]
    have hdec : (R : Int) - 1 = ((R - 1 : Nat) : Int) := by omega
    simp only [Face.expressInterest, List.nil_append, hdec]
    rw [ih (R - 1) ⟨pf.interest, pf.nextStep, ((R - 1 : Nat) : Int), pf.onFailure⟩
          (tr ++ [TraceEvent.expressed pf.interest]) rfl (by omega)]
    have hsub : R - 1 - k = R - (k + 1) := by omega
    simp [List.replicate_succ, hsub]

theorem failCount_append (t1 t2 : List TraceEvent) :
    failCount (t1 ++ t2) = failCount t1 + failCount t2 :=
  List.countP_append _ t1 t2

theorem failCount_expressed_map (rs : List ValidationRequest) :
    failCount (rs.map (fun r => TraceEvent.expressed r.m_interest)) = 0 := by
  induction rs with
  | nil => rfl
  | cons r rs ih => simp [failCount, List.countP_cons, ih]

theorem failCount_single_expressed (i : Interest) :
    failCount [TraceEvent.expressed i] = 0 := rfl

theorem failCount_single_failure (c : ContId) (s : Subject) :
    failCount [TraceEvent.failureInvoked c s] = 1 := rfl

theorem runLoop_measure_le (policy : Policy)
    (hpol : ∀ s n v f, (policy s n v f).length ≤ 1) :
    ∀ (env : List (Nat × NetOutcome)) (st st2 : VState),
      runLoop policy true env st = .ok st2 →
      st2.pending.length + failCount st2.trace
        ≤ st.pending.length + failCount st.trace := by
  intro env
  induction env with
  | nil =>
    intro st st2 h
    simp only [runLoop] at h
    cases h
    exact le_refl _
  | cons e rest ih =>
    obtain ⟨i, o⟩ := e
    intro st st2 h
    cases hg : st.pending.get? i with
    | none =>
      simp only [runLoop, hg] at h
      exact ih st st2 h
    | some pf =>
      have hi : i < st.pending.length := (List.get?_eq_some.mp hg).1
      have hlen : (st.pending.eraseIdx i).length = st.pending.length - 1 := by
        rw [List.length_eraseIdx]
        simp [hi]
      cases o with
      | timeout =>
        simp only [runLoop, hg] at h
        by_cases hr : pf.retry > 0
        · rw [Validator.onTimeout, if_pos hr] at h
          have := ih _ _ h
          simp only [Face.expressInterest] at this
          simp only [List.length_append, hlen, failCount_append,
            failCount_single_expressed, List.length_cons, List.length_nil] at this
          omega
        · rw [Validator.onTimeout, if_neg hr, invokeFailure_eq] at h
          have := ih _ _ h
          cases hf : pf.onFailure with
          | failBind c s =>
            rw [hf] at this
            simp only [failCount_append, hlen, failEventOf,
              failCount_single_failure] at this
            omega
      | arrives d =>
        simp only [runLoop, hg, Validator.onData, validate_faceSet_eq] at h
        have := ih _ _ h
        simp only [List.length_append, List.length_map, hlen,
          failCount_append, failCount_expressed_map] at this
        have hp1 := hpol (Subject.data d) pf.nextStep.m_stepCount
          pf.nextStep.m_onValidated pf.nextStep.m_onDataValidated
        omega

theorem runLoop_timeout_only_failures (policy : Policy) (faceSet : Bool)
    (f : ContId) (s : Subject) :
    ∀ (env : List (Nat × NetOutcome)) (st st2 : VState),
      (∀ e ∈ env, e.2 = NetOutcome.timeout) →
      (∀ pf ∈ st.pending, pf.onFailure = .failBind f s) →
      (∀ c subj, TraceEvent.failureInvoked c subj ∈ st.trace → c = f ∧ subj = s) →
      runLoop policy faceSet env st = .ok st2 →
      ∀ c subj, TraceEvent.failureInvoked c subj ∈ st2.trace → c = f ∧ subj = s := by
  intro env
  induction env with
  | nil =>
    intro st st2 _ _ htr h
    simp only [runLoop] at h
    cases h
    exact htr
  | cons e rest ih =>
    obtain ⟨i, o⟩ := e
    intro st st2 henv hp htr h
    have ho : o = NetOutcome.timeout := henv (i, o) (List.mem_cons_self _ _)
    subst ho
    have henv2 : ∀ e ∈ rest, e.2 = NetOutcome.timeout :=
      fun e he => henv e (List.mem_cons_of_mem _ he)
    cases hg : st.pending.get? i with
    | none =>
      simp only [runLoop, hg] at h
      exact ih st st2 henv2 hp htr h
    | some pf =>
      have hpf : pf.onFailure = .failBind f s := hp pf (List.get?_mem hg)
      have herase : ∀ q ∈ st.pending.eraseIdx i, q.onFailure = .failBind f s :=
        fun q hq => hp q ((List.eraseIdx_sublist st.pending i).subset hq)
      simp only [runLoop, hg] at h
      by_cases hr : pf.retry > 0
      · rw [Validator.onTimeout, if_pos hr] at h
        refine ih _ st2 henv2 ?_ ?_ h
        · intro q hq
          simp only [Face.expressInterest] at hq
          rcases List.mem_append.mp hq with hq1 | hq2
          · exact herase q hq1
          · rw [List.mem_singleton.mp hq2]
            exact hpf
        · intro c subj hmem
          simp only [Face.expressInterest] at hmem
          rcases List.mem_append.mp hmem with h1 | h2
          · exact htr c subj h1
          · simp at h2
      · rw [Validator.onTimeout, if_neg hr, invokeFailure_eq, hpf] at h
        refine ih _ st2 henv2 herase ?_ h
        intro c subj hmem
        rcases List.mem_append.mp hmem with h1 | h2
        · exact htr c subj h1
        · simp only [failEventOf, List.mem_singleton] at h2
          cases h2
          exact ⟨rfl, rfl⟩

/-- C1 counterexample: the claim says the failure continuation of the caller
fires at most once per top-level validate call even when two sibling
ValidationRequests both exhaust their retries; in the code the onFailure
closure built at validator.cpp line 72 is shared by all siblings with no
at-most-once guard, so when both siblings (retry 0) time out, the shared
continuation (id 40) is invoked twice on the top-level subject. -/
theorem claim1_counterexample :
    runTop polTwoSiblings true subjExample 30 40 0 [(0, .timeout), (0, .timeout)]
      = .ok ⟨[], [.expressed interestA, .expressed interestB,
                  .failureInvoked 40 subjExample,
                  .failureInvoked 40 subjExample]⟩
    ∧ failCount [TraceEvent.expressed interestA, TraceEvent.expressed interestB,
                 TraceEvent.failureInvoked 40 subjExample,
                 TraceEvent.failureInvoked 40 subjExample] = 2 :=
  ⟨rfl, rfl⟩

/-- C1 (amended): the validator invokes a failure continuation at most once
per top-level validate call provided checkPolicy returns at most one
ValidationRequest per call; with several sibling requests the shared failure
continuation fires once per sibling that exhausts its retries. -/
theorem claim1_theorem (policy : Policy)
    (hpol : ∀ s n v f, (policy s n v f).length ≤ 1)
    (subject : Subject) (onValidated onValidationFailed : ContId)
    (stepCount : Int) (env : List (Nat × NetOutcome)) (st2 : VState)
    (hrun : runTop policy true subject onValidated onValidationFailed
        stepCount env = .ok st2) :
    failCount st2.trace ≤ 1 := by
  unfold runTop at hrun
  simp only [validate_faceSet_eq] at hrun
  have hm := runLoop_measure_le policy hpol env _ st2 hrun
  simp only [List.nil_append, List.length_map, failCount_expressed_map] at hm
  have hp1 := hpol subject stepCount onValidated onValidationFailed
  omega

/-- C1 witness: a concrete singleton-request run in which the failure
continuation fires exactly once. -/
theorem claim1_witness :
    (∀ s n v f, (polSingle s n v f).length ≤ 1)
    ∧ failCount (VState.mk []
        [TraceEvent.expressed interestA,
         TraceEvent.failureInvoked 40 subjExample]).trace ≤ 1 :=
  have hp : ∀ s n v f, (polSingle s n v f).length ≤ 1 := by
    intro s n v f
    unfold polSingle
    split <;> simp
  ⟨hp, claim1_theorem polSingle hp subjExample 30 40 0 [(0, .timeout)] _ rfl⟩

/-- C2: a ValidationRequest issued with retry count R reissues the identical
fetch (same interest, same onData binding to the same request record, same
shared onFailure closure) exactly R times, one per timeout, and invokes the
failure continuation on the (R+1)-th timeout; and data receipt never
triggers a reissue — when the policy resolves the fetched object directly
(empty request list, covering content mismatch and policy rejection), onData
expresses nothing at all. -/
theorem claim2_theorem :
    (∀ (policy : Policy) (faceSet : Bool) (R : Nat) (pf : PendingFetch)
        (tr : List TraceEvent), pf.retry = (R : Int) →
      runLoop policy faceSet (List.replicate (R + 1) (0, .timeout)) ⟨[pf], tr⟩
        = .ok ⟨[], tr ++ List.replicate R (.expressed pf.interest)
                      ++ [failEventOf pf.onFailure]⟩)
    ∧ (∀ (policy : Policy) (i : Interest) (d : Data)
        (nextStep : ValidationRequest) (st : VState),
      policy (.data d) nextStep.m_stepCount nextStep.m_onValidated
          nextStep.m_onDataValidated = [] →
      Validator.onData policy true i d nextStep st = .ok st) := by
  constructor
  · exact runLoop_timeout_exhaust
  · intro policy i d nextStep st h
    simp only [Validator.onData, validate_faceSet_eq, h]
    simp

/-- C2 witness: a retry-1 request times out twice: one identical reissue,
then the failure continuation; and onData on a policy-resolved object
expresses nothing. -/
theorem claim2_witness :
    (pfW.retry = ((1 : Nat) : Int)
      ∧ runLoop polSingle true (List.replicate 2 (0, .timeout)) ⟨[pfW], []⟩
          = .ok ⟨[], [] ++ List.replicate 1 (.expressed pfW.interest)
                        ++ [failEventOf pfW.onFailure]⟩)
    ∧ (polSingle (.data certExample) reqA.m_stepCount reqA.m_onValidated
          reqA.m_onDataValidated = []
      ∧ Validator.onData polSingle true interestA certExample reqA ⟨[], []⟩
          = .ok ⟨[], []⟩) :=
  ⟨⟨rfl, claim2_theorem.1 polSingle true 1 pfW [] rfl⟩,
   ⟨rfl, claim2_theorem.2 polSingle interestA certExample reqA ⟨[], []⟩ rfl⟩⟩

/-- C3 counterexample: the claim says the failure continuation invoked on
retry exhaustion is bound to the original top-level subject at every depth;
in the code, the onFailure closure for requests spawned while validating a
fetched certificate is bound to that certificate (validator.cpp line 72
binds the subject of the current validate call).  In a two-level chain whose
deeper fetch times out, the invoked continuation is the intermediate
stored continuation of the intermediate request (id 41) applied to the fetched certificate, and no
failure event mentions the original subject. -/
theorem claim3_counterexample :
    runTop polChain true subjExample 30 40 0
        [(0, .arrives certExample), (0, .timeout)]
      = .ok ⟨[], [.expressed interestA, .expressed interestB,
                  .failureInvoked 41 (.data certExample)]⟩
    ∧ TraceEvent.failureInvoked 40 subjExample
        ∉ [TraceEvent.expressed interestA, TraceEvent.expressed interestB,
           TraceEvent.failureInvoked 41 (.data certExample)] :=
  ⟨rfl, by decide⟩

/-- C3 (amended): every failure invocation the validator performs for
requests spawned by the top-level validate call — in particular in any run
in which no fetched data arrives — is the top-level failure continuation
applied to the original top-level subject, never to the certificate being
fetched; for requests spawned at deeper recursion levels the invoked
continuation is the stored one of the spawning request, applied to the
intermediate certificate fetched at the previous level. -/
theorem claim3_theorem (policy : Policy) (subject : Subject)
    (onValidated onValidationFailed : ContId) (stepCount : Int)
    (env : List (Nat × NetOutcome)) (st2 : VState)
    (henv : ∀ e ∈ env, e.2 = NetOutcome.timeout)
    (hrun : runTop policy true subject onValidated onValidationFailed
        stepCount env = .ok st2) :
    ∀ c subj, TraceEvent.failureInvoked c subj ∈ st2.trace →
      c = onValidationFailed ∧ subj = subject := by
  unfold runTop at hrun
  simp only [validate_faceSet_eq] at hrun
  refine runLoop_timeout_only_failures policy true onValidationFailed subject
    env _ st2 henv ?_ ?_ hrun
  · intro pf hpf
    simp only [List.nil_append] at hpf
    rcases List.mem_map.mp hpf with ⟨r, _, heq⟩
    rw [← heq]
    rfl
  · intro c subj hmem
    simp only [List.nil_append] at hmem
    rcases List.mem_map.mp hmem with ⟨r, _, heq⟩
    cases heq

/-- C3 witness: a concrete single-level all-timeout run; the one failure
invocation is the top-level continuation (id 40) applied to the top-level
subject. -/
theorem claim3_witness :
    (∀ e ∈ [((0 : Nat), NetOutcome.timeout)], e.2 = NetOutcome.timeout)
    ∧ ((40 : ContId) = 40 ∧ subjExample = subjExample) :=
  ⟨by decide,
   claim3_theorem polSingle subjExample 30 40 0 [(0, .timeout)]
     ⟨[], [.expressed interestA, .failureInvoked 40 subjExample]⟩
     (by decide) rfl 40 subjExample (by decide)⟩

/-- C4 (code bug in src): the claim — and the propagation policy of the spec —
say verify never propagates an exception, converting every internal decode
error to false, malformed key bytes included.  The catch clauses in
validator.cpp (lines 127, 166-171, 192) cover only Signature::Error and
Block::Error; the RSA leaf (lines 206-210) loads the public key with the
crypto library, whose key-decode failure on malformed key bytes is a
different exception type and escapes verify uncaught.  Concretely: a Data
with a well-formed Sha256WithRsa signature, key bytes the library cannot
load (here: the empty byte string, with `wfKey` the load-succeeds
predicate of the library): verify evaluates to the uncaught error, not to
`.ok false`. -/
theorem claim4_theorem :
    Validator.verifySignatureData (fun _ => false) (fun _ _ _ => true)
        dataExample ⟨[]⟩ = .error .berDecodeError :=
  rfl

/-- C5: if checkPolicy returns a non-empty request list and no Face is
configured, validate raises the configuration error (an Except.error,
carrying no trace — so no fetch was issued and no failure continuation was
invoked); if the returned list is empty, validate returns the state
unchanged regardless of the Face: zero Transport calls. -/
theorem claim5_theorem (policy : Policy) (subject : Subject)
    (onValidated onValidationFailed : ContId) (stepCount : Int) (st : VState) :
    (policy subject stepCount onValidated onValidationFailed ≠ [] →
      Validator.validate policy false subject onValidated onValidationFailed
          stepCount st = .error .faceNotSet)
    ∧ (policy subject stepCount onValidated onValidationFailed = [] →
      ∀ faceSet, Validator.validate policy faceSet subject onValidated
          onValidationFailed stepCount st = .ok st) := by
  constructor
  · intro hne
    cases h : policy subject stepCount onValidated onValidationFailed with
    | nil => exact absurd h hne
    | cons r rs => simp [Validator.validate, h]
  · intro he faceSet
    simp [Validator.validate, he]

/-- C5 witness: a concrete non-empty policy with no Face raises the
configuration error; a concrete empty policy leaves the state unchanged. -/
theorem claim5_witness :
    (polSingle subjExample 0 30 40 ≠ []
      ∧ Validator.validate polSingle false subjExample 30 40 0 ⟨[], []⟩
          = .error .faceNotSet)
    ∧ (polSingle (.data certExample) 0 30 40 = []
      ∧ Validator.validate polSingle true (.data certExample) 30 40 0 ⟨[], []⟩
          = .ok ⟨[], []⟩) :=
  ⟨⟨by decide, (claim5_theorem polSingle subjExample 30 40 0 ⟨[], []⟩).1 (by decide)⟩,
   ⟨rfl, (claim5_theorem polSingle (.data certExample) 30 40 0 ⟨[], []⟩).2 rfl true⟩⟩

/-- C6: on data arrival, the validator re-enters validate on the fetched
object itself with exactly the stored success continuation of the request,
stored failure continuation and stored recursion budget (validator.cpp
line 93): the policy engine is consulted on the fetched Data at the stored
step count with the stored continuations, and every fetch it spawns carries
the stored failure continuation bound to the fetched object — nothing is
vouched for except through this recursive call. -/
theorem claim6_theorem (policy : Policy) (i : Interest) (d : Data)
    (nextStep : ValidationRequest) (st : VState) :
    Validator.onData policy true i d nextStep st
      = .ok ⟨st.pending
              ++ (policy (.data d) nextStep.m_stepCount nextStep.m_onValidated
                    nextStep.m_onDataValidated).map
                  (fetchOf nextStep.m_onDataValidated (.data d)),
             st.trace
              ++ (policy (.data d) nextStep.m_stepCount nextStep.m_onValidated
                    nextStep.m_onDataValidated).map
                  (fun r => .expressed r.m_interest)⟩ := by
  simp only [Validator.onData, validate_faceSet_eq]

/-- C7: verify on a Request whose Name has fewer than 3 components returns
false immediately: for every key, every crypto collaborator (`wfKey`,
`rsa`) and arbitrary — even unparseable — component bytes, the result is
`.ok false`, so no Name encoding, no signature-byte parsing and no
byte-range reconstruction influences the outcome and no error escapes. -/
theorem claim7_theorem (wfKey : Bytes → Bool) (rsa : Bytes → Bytes → Bytes → Bool)
    (interest : Interest) (key : PublicKey)
    (h : interest.name.components.length < 3) :
    Validator.verifySignatureInterest wfKey rsa interest key = .ok false := by
  unfold Validator.verifySignatureInterest
  simp [h]

/-- C7 witness: a two-component Name with non-TLV bytes returns false under
a crypto collaborator that would reject every key. -/
theorem claim7_witness :
    interestShort.name.components.length < 3
    ∧ Validator.verifySignatureInterest (fun _ => false) (fun _ _ _ => true)
        interestShort ⟨[]⟩ = .ok false :=
  ⟨by decide,
   claim7_theorem (fun _ => false) (fun _ _ _ => true) interestShort ⟨[]⟩ (by decide)⟩

/-- C8: for every subject form (SignedObject, raw buffer, Request), every
key and every crypto collaborator, a signature whose decoded kind is
anything other than Sha256WithRsa yields `.ok false`: no exception escapes,
and the result does not depend on `wfKey` or `rsa`, so no cryptographic
work (not even key loading) is performed. -/
theorem claim8_theorem :
    (∀ (wfKey : Bytes → Bool) (rsa : Bytes → Bytes → Bytes → Bool) (d : Data)
        (key : PublicKey) (t : Nat),
      d.signature.getType = some t → t ≠ Signature.Sha256WithRsa →
      Validator.verifySignatureData wfKey rsa d key = .ok false)
    ∧ (∀ (wfKey : Bytes → Bool) (rsa : Bytes → Bytes → Bytes → Bool)
        (buf : Bytes) (sig : Signature) (key : PublicKey) (t : Nat),
      sig.getType = some t → t ≠ Signature.Sha256WithRsa →
      Validator.verifySignatureBuffer wfKey rsa buf sig key = .ok false)
    ∧ (∀ (wfKey : Bytes → Bool) (rsa : Bytes → Bytes → Bytes → Bool)
        (interest : Interest) (key : PublicKey)
        (infoComp valueComp : Bytes) (infoB valueB : Block) (t : Nat),
      ¬ interest.name.components.length < 3 →
      interest.name.components.get? (interest.name.components.length - 2)
        = some infoComp →
      interest.name.components.get? (interest.name.components.length - 1)
        = some valueComp →
      blockFromValue infoComp = some infoB →
      blockFromValue valueComp = some valueB →
      Signature.getType ⟨infoB, valueB⟩ = some t →
      t ≠ Signature.Sha256WithRsa →
      Validator.verifySignatureInterest wfKey rsa interest key = .ok false) := by
  refine ⟨?_, ?_, ?_⟩
  · intro wfKey rsa d key t hgt hne
    simp [Validator.verifySignatureData, hgt, hne]
  · intro wfKey rsa buf sig key t hgt hne
    simp [Validator.verifySignatureBuffer, hgt, hne]
  · intro wfKey rsa interest key infoComp valueComp infoB valueB t
      hlen hg2 hg1 hb2 hb1 hgt hne
    simp only [List.get?_eq_getElem?] at hg2 hg1
    simp [Validator.verifySignatureInterest, hlen, hg2, hg1, hb2, hb1, hgt, hne]

/-- C8 witness: the unknown kind tag 5 yields false for a Data, a raw
buffer and an Interest, under a crypto collaborator rejecting every key. -/
theorem claim8_witness :
    dataUnknown.signature.getType = some 5
    ∧ Validator.verifySignatureData (fun _ => false) (fun _ _ _ => true)
        dataUnknown ⟨[]⟩ = .ok false
    ∧ Validator.verifySignatureBuffer (fun _ => false) (fun _ _ _ => true)
        [1, 2] sigUnknown ⟨[]⟩ = .ok false
    ∧ Validator.verifySignatureInterest (fun _ => false) (fun _ _ _ => true)
        interestUnknown ⟨[]⟩ = .ok false :=
  ⟨rfl,
   claim8_theorem.1 (fun _ => false) (fun _ _ _ => true) dataUnknown ⟨[]⟩ 5
     rfl (by decide),
   claim8_theorem.2.1 (fun _ => false) (fun _ _ _ => true) [1, 2] sigUnknown
     ⟨[]⟩ 5 rfl (by decide),
   claim8_theorem.2.2 (fun _ => false) (fun _ _ _ => true) interestUnknown
     ⟨[]⟩ [22, 3, 27, 1, 5] [23, 1, 9] ⟨22, [27, 1, 5]⟩ ⟨23, [9]⟩ 5
     (by decide) rfl rfl rfl rfl rfl (by decide)⟩

theorem take_sub_append (xs ys : Bytes) :
    (xs ++ ys).take ((xs ++ ys).length - ys.length) = xs := by
  rw [List.length_append, Nat.add_sub_cancel]
  exact List.take_left xs ys

theorem encodeBlock_length (b : Block) :
    (encodeBlock b).length = Block.size b := by
  simp only [encodeBlock, Block.size, List.length_cons]
  omega

theorem signedRange_reconstruct (xs : Bytes) (b : Block) :
    (xs ++ encodeBlock b).take ((xs ++ encodeBlock b).length - Block.size b)
      ++ encodeBlock b = xs ++ encodeBlock b := by
  rw [← encodeBlock_length, take_sub_append]

/-- C9: the byte range handed to the cryptographic verifier is correctly
reconstructed: for a Data packet it is the full encoded representation minus
exactly the bytes of the trailing signature-value block (appending those bytes
back recovers the whole encoding); for a Name (a Request with at least one
component, in particular the at-least-3 of the verified path) it is the
encoded Name minus exactly the bytes of the final component. -/
theorem claim9_theorem :
    (∀ d : Data,
      signedPortionData d ++ encodeBlock d.signature.value = d.wireEncodeValue)
    ∧ (∀ (n : Name) (cs : List Bytes) (c : Bytes), n.components = cs ++ [c] →
      signedPortionInterest n ++ encodeComponent c = n.wireEncodeValue) := by
  constructor
  · intro d
    exact signedRange_reconstruct
      (encodeBlock ⟨Tlv.NameType, d.name.wireEncodeValue⟩
        ++ encodeBlock ⟨Tlv.ContentType, d.content⟩
        ++ encodeBlock d.signature.info)
      d.signature.value
  · intro n cs c h
    have hval : n.wireEncodeValue
        = (cs.map encodeComponent).flatten ++ encodeBlock ⟨Tlv.ComponentType, c⟩ := by
      simp [Name.wireEncodeValue, h, encodeComponent]
    have hlast : n.components.getLastD [] = c := by
      rw [h]
      exact List.getLastD_concat _ _ _
    unfold signedPortionInterest
    rw [hval, hlast]
    exact signedRange_reconstruct _ _

/-- C9 witness: a concrete three-component Name; the reconstructed signed
range plus the bytes of the final component is exactly the encoded Name. -/
theorem claim9_witness :
    (Name.mk [[1], [2], [3]]).components = [[1], [2]] ++ [[3]]
    ∧ signedPortionInterest ⟨[[1], [2], [3]]⟩ ++ encodeComponent [3]
        = Name.wireEncodeValue ⟨[[1], [2], [3]]⟩ :=
  ⟨rfl, claim9_theorem.2 ⟨[[1], [2], [3]]⟩ [[1], [2]] [3] rfl⟩

/-- C10: no validator operation mutates a ValidationRequest after its
creation: a timeout with retries remaining registers a new fetch carrying
the identical request record (nextStep), interest and onFailure closure,
with the decremented retry existing only as the rebound onTimeout argument;
and across k consecutive reissues the in-flight fetch still carries the
original record unchanged (in particular its m_retry field), only the
rebound closure counter having dropped to R - k. -/
theorem claim10_theorem :
    (∀ (i : Interest) (retry : Int) (onFailure : OnFailureClo)
        (nextStep : ValidationRequest) (st : VState), retry > 0 →
      Validator.onTimeout i retry onFailure nextStep st
        = ⟨st.pending ++ [⟨i, nextStep, retry - 1, onFailure⟩],
           st.trace ++ [.expressed i]⟩)
    ∧ (∀ (policy : Policy) (faceSet : Bool) (k R : Nat) (pf : PendingFetch)
        (tr : List TraceEvent), pf.retry = (R : Int) → k ≤ R →
      runLoop policy faceSet (List.replicate k (0, .timeout)) ⟨[pf], tr⟩
        = .ok ⟨[⟨pf.interest, pf.nextStep, ((R - k : Nat) : Int), pf.onFailure⟩],
               tr ++ List.replicate k (.expressed pf.interest)⟩) := by
  constructor
  · intro i retry onFailure nextStep st h
    rw [Validator.onTimeout, if_pos h]
    rfl
  · exact runLoop_timeout_reissue

/-- C10 witness: one concrete reissue: the new fetch carries the same
request record with its m_retry field still 1, while the rebound closure counter
dropped to 0. -/
theorem claim10_witness :
    ((1 : Int) > 0
      ∧ Validator.onTimeout interestA 1 (.failBind 40 subjExample) reqChain1 ⟨[], []⟩
          = ⟨[] ++ [⟨interestA, reqChain1, 1 - 1, .failBind 40 subjExample⟩],
             [] ++ [.expressed interestA]⟩)
    ∧ (pfW.retry = ((1 : Nat) : Int) ∧ (1 : Nat) ≤ 1
      ∧ runLoop polSingle true (List.replicate 1 (0, .timeout)) ⟨[pfW], []⟩
          = .ok ⟨[⟨pfW.interest, pfW.nextStep, ((1 - 1 : Nat) : Int), pfW.onFailure⟩],
                 [] ++ List.replicate 1 (.expressed pfW.interest)⟩) :=
  ⟨⟨by decide,
    claim10_theorem.1 interestA 1 (.failBind 40 subjExample) reqChain1 ⟨[], []⟩
      (by decide)⟩,
   ⟨rfl, by decide,
    claim10_theorem.2 polSingle true 1 1 pfW [] rfl (by decide)⟩⟩
